import Mathlib

/-!
Verification of the Action Dispatch Protocol of the `sdk-go` repository
(`corp/corp.go`) and of the menu tree data model exercised by `oa/menu_test.go`.

Modelling conventions:
* Response and request bodies are identified with their parsed JSON values
  (`Json` below); `gjson.ParseBytes` is therefore the identity in the model.
  JSON numbers are modelled as integers (the envelope's `errcode` is integral).
* Objects carry their fields as an association list; a duplicate key is
  resolved to its first occurrence.
* Go errors are opaque values with a message; `fmt.Errorf` results are the
  `GoError.errorf` constructor, errors from `encoding/json` are
  `GoError.unmarshalErr`, and arbitrary collaborator errors are `GoError.ext`.
* Side effects on caller-owned destinations are explicit state passing: an
  Action's `Decode` is a state transformer on the destination type `σ`.
* The dispatcher is instrumented with an event trace recording which of the
  Action's capabilities and which transport calls were invoked, so that
  "never invokes Decode"-style properties are statable.
-/

/-- A JSON value, the parsed form of request/response bytes. -/
inductive Json where
  | null : Json
  | bool (b : Bool) : Json
  | num (n : Int) : Json
  | str (s : String) : Json
  | arr (xs : List Json) : Json
  | obj (kvs : List (String × Json)) : Json

mutual

/-- Canonical rendering of a JSON value (the model of the raw bytes that
gjson would return for an object- or array-valued result). -/
def Json.render : Json → String
  | Json.null => "null"
  | Json.bool b => cond b "true" "false"
  | Json.num n => toString n
  | Json.str s => "\x22" ++ s ++ "\x22"
  | Json.arr xs => "[" ++ Json.renderArr xs ++ "]"
  | Json.obj kvs => "\x7b" ++ Json.renderObj kvs ++ "\x7d"

/-- Comma-separated rendering of array elements. -/
def Json.renderArr : List Json → String
  | [] => ""
  | [x] => Json.render x
  | x :: y :: xs => Json.render x ++ "," ++ Json.renderArr (y :: xs)

/-- Comma-separated rendering of object members. -/
def Json.renderObj : List (String × Json) → String
  | [] => ""
  | [(k, v)] => "\x22" ++ k ++ "\x22:" ++ Json.render v
  | (k, v) :: m :: kvs =>
      "\x22" ++ k ++ "\x22:" ++ Json.render v ++ "," ++ Json.renderObj (m :: kvs)

end

/-- `gjson.Get` restricted to one top-level key: look a key up in a JSON
object; any other shape has no such member. -/
def Json.get : Json → String → Option Json
  | Json.obj kvs, key => List.lookup key kvs
  | _, _ => none

/-- Decimal digit list to number. -/
def digitsVal (cs : List Char) : Nat :=
  cs.foldl (fun acc c => acc * 10 + (c.toNat - 48)) 0

/-- gjson's lenient string-to-integer parse: an optional minus sign followed
by decimal digits; anything else yields 0. -/
def gjsonParseInt (s : String) : Int :=
  match s.data with
  | [] => 0
  | '-' :: cs =>
      if cs ≠ [] ∧ cs.all Char.isDigit then -(digitsVal cs : Int) else 0
  | cs => if cs.all Char.isDigit then (digitsVal cs : Int) else 0

/-- `gjson.Result.Int()` on the result of a `Get`: a missing member, null,
object or array yields 0; booleans yield 0/1; strings are parsed leniently. -/
def gjsonInt : Option Json → Int
  | none => 0
  | some Json.null => 0
  | some (Json.bool b) => cond b 1 0
  | some (Json.num n) => n
  | some (Json.str s) => gjsonParseInt s
  | some (Json.arr _) => 0
  | some (Json.obj _) => 0

/-- `gjson.Result.String()` on the result of a `Get`: a missing member or
null yields the empty string; objects and arrays yield their raw form. -/
def gjsonString : Option Json → String
  | none => ""
  | some Json.null => ""
  | some (Json.bool b) => cond b "true" "false"
  | some (Json.num n) => toString n
  | some (Json.str s) => s
  | some (Json.arr xs) => Json.render (Json.arr xs)
  | some (Json.obj kvs) => Json.render (Json.obj kvs)

/-- A Go error value. `errorf msg` is a `fmt.Errorf` result whose message is
`msg`; `unmarshalErr` is an `encoding/json` unmarshalling error; `ext n` is
an arbitrary error produced by a collaborator (transport, body producer, …). -/
inductive GoError where
  | errorf (msg : String) : GoError
  | unmarshalErr (what : String) : GoError
  | ext (n : Nat) : GoError
deriving DecidableEq

namespace wx

/-- `wx.UploadForm`: an opaque multipart form descriptor; the dispatcher
never inspects it, it only hands it to the transport. -/
structure UploadForm where
  id : Nat
deriving DecidableEq

/-- `wx.HTTPClient`: the injected transport capability. `Do` takes the HTTP
method, the URL and the (possibly nil) request body; `Upload` takes the URL
and a multipart form. The context and per-call HTTP options are pass-through
values with no semantics at this layer and are omitted from the model. -/
structure HTTPClient where
  Do : String → String → Option Json → Except GoError Json
  Upload : String → UploadForm → Except GoError Json

/-- `wx.Action`: the polymorphic description of one remote operation, as a
capability record. `σ` is the type of the caller-owned destination storage
that `Decode` writes into (Go closes over a destination pointer; the model
passes the destination state explicitly). -/
structure Action (σ : Type) where
  Method : String
  URL : String → String
  IsUpload : Bool
  Body : Except GoError (Option Json)
  UploadForm : Except GoError wx.UploadForm
  Decode : Json → σ → Option GoError × σ

end wx

/-- Events recorded while the dispatcher runs, in order: which Action
capability was invoked, which transport call was made, and whether the
response envelope was parsed. -/
inductive Event where
  | callBody : Event
  | callUploadForm : Event
  | callClientDo (method url : String) (body : Option Json) : Event
  | callClientUpload (url : String) (form : wx.UploadForm) : Event
  | parseEnvelope (resp : Json) : Event
  | callDecode (resp : Json) : Event

/-- `Event.callBody` discriminator. -/
def isCallBody : Event → Bool
  | Event.callBody => true
  | _ => false

/-- `Event.callUploadForm` discriminator. -/
def isCallUploadForm : Event → Bool
  | Event.callUploadForm => true
  | _ => false

/-- Transport-call discriminator. -/
def isTransportCall : Event → Bool
  | Event.callClientDo _ _ _ => true
  | Event.callClientUpload _ _ => true
  | _ => false

/-- Envelope-parse discriminator. -/
def isParseEnvelope : Event → Bool
  | Event.parseEnvelope _ => true
  | _ => false

/-- The argument of a `callDecode` event, if the event is one; the list of
Decode invocations of a trace is its `filterMap decodeArg`. -/
def decodeArg : Event → Option Json
  | Event.callDecode resp => some resp
  | _ => none

/-- The `Corp` client object (`corp/corp.go` lines 16-22). -/
structure Corp where
  corpid : String
  token : String
  aeskey : String
  nonce : Unit → String
  client : wx.HTTPClient

/-- Lines 95-101 of `corp.go`: parse the response as an envelope; a non-zero
`errcode` becomes the `fmt.Errorf("%d|%s", code, errmsg)` error, otherwise
the Action's `Decode` runs on the full response. `tr` is the trace of the
steps already taken. -/
def handleResp {σ : Type} (a : wx.Action σ) (resp : Json) (s : σ) (tr : List Event) :
    Option GoError × σ × List Event :=
  let tr1 := tr ++ [Event.parseEnvelope resp]
  let code := gjsonInt (Json.get resp "errcode")
  if code ≠ 0 then
    (some (GoError.errorf (toString code ++ "|" ++ gjsonString (Json.get resp "errmsg"))),
      s, tr1)
  else
    ((a.Decode resp s).1, (a.Decode resp s).2, tr1 ++ [Event.callDecode resp])

/-- `Corp.Do` (`corp.go` lines 63-102): the dispatcher. On an upload action
the multipart form is produced and sent via `client.Upload`; otherwise the
body is produced and sent via `client.Do` (with an early return on a
transport error, lines 86-88; the check of lines 91-93 covers the upload
branch). A production or transport error is returned as-is; otherwise the
envelope stage of lines 95-101 runs. -/
def Corp.Do {σ : Type} (corp : Corp) (accessToken : String) (a : wx.Action σ) (s : σ) :
    Option GoError × σ × List Event :=
  if a.IsUpload then
    match a.UploadForm with
    | Except.error ferr => (some ferr, s, [Event.callUploadForm])
    | Except.ok form =>
      match corp.client.Upload (a.URL accessToken) form with
      | Except.error err =>
          (some err, s,
            [Event.callUploadForm, Event.callClientUpload (a.URL accessToken) form])
      | Except.ok resp =>
          handleResp a resp s
            [Event.callUploadForm, Event.callClientUpload (a.URL accessToken) form]
  else
    match a.Body with
    | Except.error berr => (some berr, s, [Event.callBody])
    | Except.ok b =>
      match corp.client.Do a.Method (a.URL accessToken) b with
      | Except.error err =>
          (some err, s,
            [Event.callBody, Event.callClientDo a.Method (a.URL accessToken) b])
      | Except.ok resp =>
          handleResp a resp s
            [Event.callBody, Event.callClientDo a.Method (a.URL accessToken) b]

/-- The outcome of the body/form production and transport steps of one
dispatch (`corp.go` lines 69-93), used to state hypotheses about the
response the transport delivered. -/
def Corp.transportOutcome {σ : Type} (corp : Corp) (accessToken : String) (a : wx.Action σ) :
    Except GoError Json :=
  if a.IsUpload then
    match a.UploadForm with
    | Except.error e => Except.error e
    | Except.ok form => corp.client.Upload (a.URL accessToken) form
  else
    match a.Body with
    | Except.error e => Except.error e
    | Except.ok b => corp.client.Do a.Method (a.URL accessToken) b

/-- The credential token record returned by `Corp.AccessToken`.
Modelled from the spec: the `AccessToken` struct itself lives in a source
file outside the provided sources; per the spec the token is "fetched and
handed back as a value", an opaque credential string with an expiry. -/
structure AccessToken where
  access_token : String
  expires_in : Int
deriving DecidableEq

/-- `encoding/json` reading of a string-typed struct field: an absent member
or null leaves the zero value `""`; a string member is taken verbatim; any
other shape is an unmarshalling error. -/
def getStrField (kvs : List (String × Json)) (key : String) : Except GoError String :=
  match List.lookup key kvs with
  | none => Except.ok ""
  | some Json.null => Except.ok ""
  | some (Json.str s) => Except.ok s
  | some _ => Except.error (GoError.unmarshalErr key)

/-- `encoding/json` reading of an integer-typed struct field: an absent
member or null leaves the zero value 0; a number is taken verbatim; any
other shape is an unmarshalling error. -/
def getIntField (kvs : List (String × Json)) (key : String) : Except GoError Int :=
  match List.lookup key kvs with
  | none => Except.ok 0
  | some Json.null => Except.ok 0
  | some (Json.num n) => Except.ok n
  | some _ => Except.error (GoError.unmarshalErr key)

/-- `json.Unmarshal(resp, token)` for the `AccessToken` struct: the top
level must be a JSON object and the known members must be type-correct. -/
def unmarshalAccessToken : Json → Except GoError AccessToken
  | Json.obj kvs =>
    match getStrField kvs "access_token" with
    | Except.error e => Except.error e
    | Except.ok tk =>
      match getIntField kvs "expires_in" with
      | Except.error e => Except.error e
      | Except.ok ei => Except.ok ⟨tk, ei⟩
  | _ => Except.error (GoError.unmarshalErr "AccessToken")

/-- Modelled from the spec: the gettoken endpoint constant lives in the
`urls` package, outside the provided sources; its exact literal is
immaterial to every claim. -/
def CorpCgiBinAccessToken : String := "https://qyapi.weixin.qq.com/cgi-bin/gettoken"

/-- Events recorded while `Corp.AccessToken` runs. -/
inductive AEvent where
  | callClientDo (method url : String) : AEvent
  | callUnmarshal (resp : Json) : AEvent

/-- `AEvent.callUnmarshal` discriminator. -/
def isCallUnmarshal : AEvent → Bool
  | AEvent.callUnmarshal _ => true
  | _ => false

/-- `Corp.AccessToken` (`corp.go` lines 40-60). Go returns the pair
`(*AccessToken, error)`; the model returns both components (plus the event
trace), so that "never both non-nil" is a real statement. -/
def Corp.AccessToken (corp : Corp) (secret : String) :
    Option AccessToken × Option GoError × List AEvent :=
  let url := CorpCgiBinAccessToken ++ "?corpid=" ++ corp.corpid ++ "&corpsecret=" ++ secret
  match corp.client.Do "GET" url none with
  | Except.error err => (none, some err, [AEvent.callClientDo "GET" url])
  | Except.ok resp =>
    let code := gjsonInt (Json.get resp "errcode")
    if code ≠ 0 then
      (none,
        some (GoError.errorf (toString code ++ "|" ++ gjsonString (Json.get resp "errmsg"))),
        [AEvent.callClientDo "GET" url])
    else
      match unmarshalAccessToken resp with
      | Except.error uerr =>
          (none, some uerr, [AEvent.callClientDo "GET" url, AEvent.callUnmarshal resp])
      | Except.ok t =>
          (some t, none, [AEvent.callClientDo "GET" url, AEvent.callUnmarshal resp])

/-- `CorpOption`: a configuration function applied to the `Corp` under
construction (`corp.go` line 125). -/
def CorpOption : Type := Corp → Corp

/-- `WithServerConfig` (`corp.go` lines 129-134). -/
def WithServerConfig (token aeskey : String) : CorpOption :=
  fun corp => { corp with token := token, aeskey := aeskey }

/-- `WithNonce` (`corp.go` lines 137-141). -/
def WithNonce (f : Unit → String) : CorpOption :=
  fun corp => { corp with nonce := f }

/-- `WithMockClient` (`corp.go` lines 151-155): install a caller-supplied
transport capability verbatim. -/
def WithMockClient (c : wx.HTTPClient) : CorpOption :=
  fun corp => { corp with client := c }

/-- Modelled from the spec: `wx.NewDefaultClient` builds the real HTTP
transport, which is an external collaborator; it is represented by an
opaque capability value whose behaviour no claim depends on. -/
def NewDefaultClient : wx.HTTPClient :=
  { Do := fun _ _ _ => Except.error (GoError.ext 0),
    Upload := fun _ _ => Except.error (GoError.ext 0) }

namespace wx

/-- Modelled from the spec: `wx.Nonce(size)` draws a random alphanumeric
string of length `size`; randomness is external, so the model fixes a
deterministic stand-in of the same length. -/
def Nonce (size : Nat) : String :=
  String.mk (List.replicate size 'n')

end wx

/-- `New` (`corp.go` lines 157-171): build the `Corp` with the given corpid,
the default client and a 16-character nonce generator, then apply the
options in argument order. -/
def New (corpid : String) (options : List CorpOption) : Corp :=
  options.foldl (fun corp f => f corp)
    { corpid := corpid
      token := ""
      aeskey := ""
      nonce := fun _ => wx.Nonce 16
      client := NewDefaultClient }

/-- The transport call `Corp.AccessToken` makes (`corp.go` line 41): a GET
of the gettoken endpoint parameterised by corpid and secret, with nil body. -/
def Corp.tokenRequest (corp : Corp) (secret : String) : Except GoError Json :=
  corp.client.Do "GET"
    (CorpCgiBinAccessToken ++ "?corpid=" ++ corp.corpid ++ "&corpsecret=" ++ secret) none

/-- A fixed error envelope: errcode 40013 with a message. -/
def respErr : Json :=
  Json.obj [("errcode", Json.num 40013), ("errmsg", Json.str "invalid credential")]

/-- A fixed success response with no `errcode` member at all. -/
def respNoCode : Json :=
  Json.obj [("access_token", Json.str "TOKEN"), ("expires_in", Json.num 7200)]

/-- A transport capability answering every call with a fixed response. -/
def constClient (resp : Json) : wx.HTTPClient :=
  { Do := fun _ _ _ => Except.ok resp, Upload := fun _ _ => Except.ok resp }

/-- A transport capability failing every call with a fixed error. -/
def downClient : wx.HTTPClient :=
  { Do := fun _ _ _ => Except.error (GoError.ext 7),
    Upload := fun _ _ => Except.error (GoError.ext 7) }

/-- A sample non-upload POST action over a ℕ destination; Decode increments
the destination. -/
def postAction : wx.Action Nat :=
  { Method := "POST", URL := fun tok => "https://example/api?access_token=" ++ tok,
    IsUpload := false, Body := Except.ok (some Json.null),
    UploadForm := Except.ok ⟨0⟩,
    Decode := fun _ s => (none, s + 1) }

/-- A sample upload action. -/
def uploadAction : wx.Action Nat :=
  { postAction with IsUpload := true }

/-- A sample upload action whose form production fails. -/
def badFormAction : wx.Action Nat :=
  { uploadAction with UploadForm := Except.error (GoError.ext 4) }

/-- A sample corp around a given transport capability. -/
def mkCorp (c : wx.HTTPClient) : Corp :=
  { corpid := "10001", token := "", aeskey := "", nonce := fun _ => "", client := c }

/-- Modelled from the spec: a `MenuButton` node of the recursive menu tree
(`oa/menu.go` is outside the provided sources; its shape is pinned by the
spec and by `oa/menu_test.go`). Seven string fields — type, name, key, url,
appid, pagepath, media_id, each omitted from the wire form when empty — and
the `sub_button` child list, which per the spec is always serialized as a
sequence, never absent, when produced by the builders. Go's nil slice is
distinguished from the empty slice by the `Option`. -/
inductive MenuButton where
  | mk (ty nm key url appid pagepath mediaid : String)
      (sub : Option (List MenuButton)) : MenuButton

/-- The button's `Type` field. -/
def MenuButton.btnType : MenuButton → String
  | MenuButton.mk t _ _ _ _ _ _ _ => t

/-- The button's `Name` field. -/
def MenuButton.Name : MenuButton → String
  | MenuButton.mk _ n _ _ _ _ _ _ => n

/-- The button's `Key` field. -/
def MenuButton.Key : MenuButton → String
  | MenuButton.mk _ _ k _ _ _ _ _ => k

/-- The button's `URL` field. -/
def MenuButton.URL : MenuButton → String
  | MenuButton.mk _ _ _ u _ _ _ _ => u

/-- The button's `AppID` field. -/
def MenuButton.AppID : MenuButton → String
  | MenuButton.mk _ _ _ _ a _ _ _ => a

/-- The button's `PagePath` field. -/
def MenuButton.PagePath : MenuButton → String
  | MenuButton.mk _ _ _ _ _ p _ _ => p

/-- The button's `MediaID` field. -/
def MenuButton.MediaID : MenuButton → String
  | MenuButton.mk _ _ _ _ _ _ m _ => m

/-- The button's `SubButton` field. -/
def MenuButton.SubButton : MenuButton → Option (List MenuButton)
  | MenuButton.mk _ _ _ _ _ _ _ s => s

/-- Modelled from the spec: the `ClickButton` builder — type `click`, the
given name and key, and an empty (non-nil) child list. -/
def ClickButton (name key : String) : MenuButton :=
  MenuButton.mk "click" name key "" "" "" "" (some [])

/-- Modelled from the spec: the `ViewButton` builder — type `view`, the
given name and url, and an empty (non-nil) child list. -/
def ViewButton (name url : String) : MenuButton :=
  MenuButton.mk "view" name "" url "" "" "" (some [])

/-- Modelled from the spec: the `MPButton` builder — type `miniprogram`,
the given name, appid, pagepath and url, and an empty (non-nil) child
list. -/
def MPButton (name appid pagepath url : String) : MenuButton :=
  MenuButton.mk "miniprogram" name "" url appid pagepath "" (some [])

/-- Modelled from the spec: the `GroupButton` builder — a pure grouping
node carrying only a name and its (non-nil) children. -/
def GroupButton (name : String) (subs : List MenuButton) : MenuButton :=
  MenuButton.mk "" name "" "" "" "" "" (some subs)

/-- One wire member of an `omitempty` string field: absent when empty. -/
def strField (key val : String) : List (String × Json) :=
  if val = "" then [] else [(key, Json.str val)]

mutual

/-- Modelled from the spec: `json.Marshal` of a `MenuButton` — the seven
string fields are omitted when empty, `sub_button` is always present (a nil
child list would marshal as null; builder-produced trees never carry one). -/
def serializeButton : MenuButton → Json
  | MenuButton.mk t n k u a p m sub =>
      Json.obj (strField "type" t ++ (strField "name" n ++ (strField "key" k
        ++ (strField "url" u ++ (strField "appid" a ++ (strField "pagepath" p
        ++ (strField "media_id" m ++ [("sub_button", serializeSub sub)])))))))

/-- Marshal of the `sub_button` slice: nil becomes null, otherwise an array. -/
def serializeSub : Option (List MenuButton) → Json
  | none => Json.null
  | some xs => Json.arr (serializeList xs)

/-- Marshal of a list of buttons. -/
def serializeList : List MenuButton → List Json
  | [] => []
  | b :: bs => serializeButton b :: serializeList bs

end

mutual

/-- Modelled from the spec: `json.Unmarshal` into a `MenuButton` — the top
level must be an object, unknown members are ignored, absent string members
decode to the empty string, an absent or null `sub_button` decodes to a nil
list and an array decodes element-wise. -/
def decodeButton : Json → Except GoError MenuButton
  | Json.obj kvs =>
    match getStrField kvs "type" with
    | Except.error e => Except.error e
    | Except.ok t =>
      match getStrField kvs "name" with
      | Except.error e => Except.error e
      | Except.ok n =>
        match getStrField kvs "key" with
        | Except.error e => Except.error e
        | Except.ok k =>
          match getStrField kvs "url" with
          | Except.error e => Except.error e
          | Except.ok u =>
            match getStrField kvs "appid" with
            | Except.error e => Except.error e
            | Except.ok a =>
              match getStrField kvs "pagepath" with
              | Except.error e => Except.error e
              | Except.ok p =>
                match getStrField kvs "media_id" with
                | Except.error e => Except.error e
                | Except.ok m =>
                  match decodeSubField kvs with
                  | Except.error e => Except.error e
                  | Except.ok sub => Except.ok (MenuButton.mk t n k u a p m sub)
  | _ => Except.error (GoError.unmarshalErr "MenuButton")

/-- Find the first `sub_button` member and decode it; no member is a nil
child list. -/
def decodeSubField : List (String × Json) → Except GoError (Option (List MenuButton))
  | [] => Except.ok none
  | (k, v) :: rest =>
    if k = "sub_button" then decodeSubVal v else decodeSubField rest

/-- Decode a `sub_button` value: null is a nil child list, an array decodes
element-wise, anything else is an unmarshalling error. -/
def decodeSubVal : Json → Except GoError (Option (List MenuButton))
  | Json.null => Except.ok none
  | Json.arr js =>
    match decodeList js with
    | Except.error e => Except.error e
    | Except.ok bs => Except.ok (some bs)
  | _ => Except.error (GoError.unmarshalErr "sub_button")

/-- Decode a list of buttons. -/
def decodeList : List Json → Except GoError (List MenuButton)
  | [] => Except.ok []
  | j :: js =>
    match decodeButton j with
    | Except.error e => Except.error e
    | Except.ok b =>
      match decodeList js with
      | Except.error e => Except.error e
      | Except.ok bs => Except.ok (b :: bs)

end

mutual

/-- A builder-produced tree: every node's child list is a sequence (possibly
empty), never nil. -/
def wellFormed : MenuButton → Bool
  | MenuButton.mk _ _ _ _ _ _ _ none => false
  | MenuButton.mk _ _ _ _ _ _ _ (some xs) => wellFormedList xs

/-- `wellFormed` over a list of buttons. -/
def wellFormedList : List MenuButton → Bool
  | [] => true
  | b :: bs => wellFormed b && wellFormedList bs

end

mutual

/-- The wire-form invariant of the spec: every serialized node carries a
`sub_button` member whose value is an array (never absent, never null). -/
def subAlwaysArr : Json → Bool
  | Json.obj kvs => subFieldArr kvs
  | _ => false

/-- Find the first `sub_button` member of a serialized node and check it. -/
def subFieldArr : List (String × Json) → Bool
  | [] => false
  | (k, v) :: rest => if k = "sub_button" then subValArr v else subFieldArr rest

/-- A `sub_button` value must be an array of well-shaped nodes. -/
def subValArr : Json → Bool
  | Json.arr js => subListArr js
  | _ => false

/-- `subAlwaysArr` over serialized children. -/
def subListArr : List Json → Bool
  | [] => true
  | j :: js => subAlwaysArr j && subListArr js

end

/-- Modelled from the spec: the `MenuMatchRule` record — every field an
optional string on the wire, always present in memory. -/
structure MenuMatchRule where
  TagID : String
  Sex : String
  Country : String
  Province : String
  City : String
  ClientPlatformType : String
  Language : String
deriving DecidableEq

/-- Modelled from the spec: the unconditional menu of a query result. -/
structure DefaultMenu where
  Button : Option (List MenuButton)
  MenuID : Int

/-- Modelled from the spec: a conditional menu of a query result. -/
structure ConditionalMenu where
  Button : Option (List MenuButton)
  MatchRule : Option MenuMatchRule
  MenuID : Int

/-- Modelled from the spec: the aggregate query result — one optional
default menu plus a sequence of conditional menus. -/
structure MenuInfo where
  defaultMenu : Option DefaultMenu
  conditionalMenu : Option (List ConditionalMenu)

/-- Modelled from the spec: `json.Unmarshal` into a `MenuMatchRule`. -/
def decodeMatchRule : Json → Except GoError MenuMatchRule
  | Json.obj kvs =>
    match getStrField kvs "tag_id" with
    | Except.error e => Except.error e
    | Except.ok a =>
      match getStrField kvs "sex" with
      | Except.error e => Except.error e
      | Except.ok b =>
        match getStrField kvs "country" with
        | Except.error e => Except.error e
        | Except.ok c =>
          match getStrField kvs "province" with
          | Except.error e => Except.error e
          | Except.ok d =>
            match getStrField kvs "city" with
            | Except.error e => Except.error e
            | Except.ok e2 =>
              match getStrField kvs "client_platform_type" with
              | Except.error e => Except.error e
              | Except.ok f =>
                match getStrField kvs "language" with
                | Except.error e => Except.error e
                | Except.ok g => Except.ok ⟨a, b, c, d, e2, f, g⟩
  | _ => Except.error (GoError.unmarshalErr "matchrule")

/-- Decode an optional `button` member into an optional button list. -/
def decodeButtonsField (kvs : List (String × Json)) :
    Except GoError (Option (List MenuButton)) :=
  match List.lookup "button" kvs with
  | none => Except.ok none
  | some Json.null => Except.ok none
  | some (Json.arr js) =>
    match decodeList js with
    | Except.error e => Except.error e
    | Except.ok bs => Except.ok (some bs)
  | some _ => Except.error (GoError.unmarshalErr "button")

/-- Modelled from the spec: `json.Unmarshal` into a `DefaultMenu`. -/
def decodeDefaultMenu : Json → Except GoError DefaultMenu
  | Json.obj kvs =>
    match decodeButtonsField kvs with
    | Except.error e => Except.error e
    | Except.ok btns =>
      match getIntField kvs "menuid" with
      | Except.error e => Except.error e
      | Except.ok mid => Except.ok ⟨btns, mid⟩
  | _ => Except.error (GoError.unmarshalErr "menu")

/-- Modelled from the spec: `json.Unmarshal` into a `ConditionalMenu`. -/
def decodeConditionalMenu : Json → Except GoError ConditionalMenu
  | Json.obj kvs =>
    match decodeButtonsField kvs with
    | Except.error e => Except.error e
    | Except.ok btns =>
      match (match List.lookup "matchrule" kvs with
             | none => Except.ok (none : Option MenuMatchRule)
             | some Json.null => Except.ok none
             | some j =>
               match decodeMatchRule j with
               | Except.error e => Except.error e
               | Except.ok mr => Except.ok (some mr)) with
      | Except.error e => Except.error e
      | Except.ok mr =>
        match getIntField kvs "menuid" with
        | Except.error e => Except.error e
        | Except.ok mid => Except.ok ⟨btns, mr, mid⟩
  | _ => Except.error (GoError.unmarshalErr "conditionalmenu")

/-- Decode a list of conditional menus. -/
def decodeCondList : List Json → Except GoError (List ConditionalMenu)
  | [] => Except.ok []
  | j :: js =>
    match decodeConditionalMenu j with
    | Except.error e => Except.error e
    | Except.ok c =>
      match decodeCondList js with
      | Except.error e => Except.error e
      | Except.ok cs => Except.ok (c :: cs)

/-- Modelled from the spec: `json.Unmarshal` into a `MenuInfo` — the `menu`
member populates the default menu (absent means nil), the `conditionalmenu`
array populates the conditional menus (absent means nil). -/
def decodeMenuInfo : Json → Except GoError MenuInfo
  | Json.obj kvs =>
    match (match List.lookup "menu" kvs with
           | none => Except.ok (none : Option DefaultMenu)
           | some Json.null => Except.ok none
           | some j =>
             match decodeDefaultMenu j with
             | Except.error e => Except.error e
             | Except.ok dm => Except.ok (some dm)) with
    | Except.error e => Except.error e
    | Except.ok dm =>
      match (match List.lookup "conditionalmenu" kvs with
             | none => Except.ok (none : Option (List ConditionalMenu))
             | some Json.null => Except.ok none
             | some (Json.arr js) =>
               match decodeCondList js with
               | Except.error e => Except.error e
               | Except.ok cs => Except.ok (some cs)
             | some _ => Except.error (GoError.unmarshalErr "conditionalmenu")) with
      | Except.error e => Except.error e
      | Except.ok cms => Except.ok ⟨dm, cms⟩
  | _ => Except.error (GoError.unmarshalErr "MenuInfo")

/-- Modelled from the spec: the `CreateMenu` action — a POST whose body is
`json.Marshal` of the wrapper object with the `button` array; no decode
step beyond envelope success. -/
def CreateMenu (buttons : List MenuButton) : wx.Action Unit :=
  { Method := "POST"
    URL := fun tok => "https://api.weixin.qq.com/cgi-bin/menu/create?access_token=" ++ tok
    IsUpload := false
    Body := Except.ok (some (Json.obj [("button", Json.arr (serializeList buttons))]))
    UploadForm := Except.ok ⟨0⟩
    Decode := fun _ s => (none, s) }

/-- Modelled from the spec: the `GetMenu` action — a GET whose decode step
unmarshals the full response into the caller-owned `MenuInfo` destination. -/
def GetMenu : wx.Action MenuInfo :=
  { Method := "GET"
    URL := fun tok => "https://api.weixin.qq.com/cgi-bin/menu/get?access_token=" ++ tok
    IsUpload := false
    Body := Except.ok none
    UploadForm := Except.ok ⟨0⟩
    Decode := fun resp s =>
      match decodeMenuInfo resp with
      | Except.error e => (some e, s)
      | Except.ok mi => (none, mi) }

/-- The mocked response of `TestGetMenu` in `oa/menu_test.go`. -/
def testMenuResp : Json :=
  Json.obj
    [("menu", Json.obj
        [("button", Json.arr
            [Json.obj [("type", Json.str "click"), ("name", Json.str "今日歌曲"),
                ("key", Json.str "V1001_TODAY_MUSIC"), ("sub_button", Json.arr [])]]),
          ("menuid", Json.num 208396938)]),
      ("conditionalmenu", Json.arr
        [Json.obj
            [("button", Json.arr
                [Json.obj [("type", Json.str "click"), ("name", Json.str "今日歌曲"),
                    ("key", Json.str "V1001_TODAY_MUSIC"), ("sub_button", Json.arr [])],
                  Json.obj [("name", Json.str "菜单"),
                    ("sub_button", Json.arr
                      [Json.obj [("type", Json.str "view"), ("name", Json.str "搜索"),
                          ("url", Json.str "http://www.soso.com/"),
                          ("sub_button", Json.arr [])],
                        Json.obj [("type", Json.str "view"), ("name", Json.str "视频"),
                          ("url", Json.str "http://v.qq.com/"),
                          ("sub_button", Json.arr [])],
                        Json.obj [("type", Json.str "click"), ("name", Json.str "赞一下我们"),
                          ("key", Json.str "V1001_GOOD"),
                          ("sub_button", Json.arr [])]])]]),
              ("matchrule", Json.obj
                [("tag_id", Json.str "2"), ("sex", Json.str "1"),
                  ("country", Json.str "中国"), ("province", Json.str "广东"),
                  ("city", Json.str "广州"), ("client_platform_type", Json.str "2")]),
              ("menuid", Json.num 208396993)]])]

/-- The `MenuInfo` value `TestGetMenu` expects after decoding. -/
def testMenuInfo : MenuInfo :=
  { defaultMenu := some
      { Button := some
          [MenuButton.mk "click" "今日歌曲" "V1001_TODAY_MUSIC" "" "" "" "" (some [])],
        MenuID := 208396938 },
    conditionalMenu := some
      [{ Button := some
            [MenuButton.mk "click" "今日歌曲" "V1001_TODAY_MUSIC" "" "" "" "" (some []),
              MenuButton.mk "" "菜单" "" "" "" "" ""
                (some
                  [MenuButton.mk "view" "搜索" "" "http://www.soso.com/" "" "" "" (some []),
                    MenuButton.mk "view" "视频" "" "http://v.qq.com/" "" "" "" (some []),
                    MenuButton.mk "click" "赞一下我们" "V1001_GOOD" "" "" "" "" (some [])])],
         MatchRule := some
            { TagID := "2", Sex := "1", Country := "中国", Province := "广东",
              City := "广州", ClientPlatformType := "2", Language := "" },
         MenuID := 208396993 }] }

/-- The button tree of `TestCreateMenu`: one click button and one group of a
view button, a mini-program button and a click button. -/
def testCreateButtons : List MenuButton :=
  [ClickButton "今日歌曲" "V1001_TODAY_MUSIC",
    GroupButton "菜单"
      [ViewButton "搜索" "http://www.soso.com/",
        MPButton "wxa" "wx286b93c14bbf93aa" "pages/lunar/index" "http://mp.weixin.qq.com",
        ClickButton "赞一下我们" "V1001_GOOD"]]

/-- The matchrule object of the `TestGetMenu` response: every member except
`language` is present. -/
def testMatchRuleKvs : List (String × Json) :=
  [("tag_id", Json.str "2"), ("sex", Json.str "1"), ("country", Json.str "中国"),
    ("province", Json.str "广东"), ("city", Json.str "广州"),
    ("client_platform_type", Json.str "2")]

/-- The matchrule value `TestGetMenu` expects: `Language` is empty. -/
def testMatchRuleVal : MenuMatchRule :=
  { TagID := "2", Sex := "1", Country := "中国", Province := "广东",
    City := "广州", ClientPlatformType := "2", Language := "" }

theorem handleResp_countP {σ : Type} (a : wx.Action σ) (resp : Json) (s : σ)
    (tr : List Event) (p : Event → Bool) (hp : p (Event.parseEnvelope resp) = false)
    (hd : p (Event.callDecode resp) = false) :
    ((handleResp a resp s tr).2.2).countP p = tr.countP p := by
  unfold handleResp
  by_cases h : gjsonInt (Json.get resp "errcode") = 0 <;>
    simp [h, List.countP_append, List.countP_cons, hp, hd]

theorem handleResp_decodeCalls {σ : Type} (a : wx.Action σ) (resp : Json) (s : σ)
    (tr : List Event) :
    ((handleResp a resp s tr).2.2).filterMap decodeArg
      = tr.filterMap decodeArg
        ++ (if gjsonInt (Json.get resp "errcode") = 0 then [resp] else []) := by
  unfold handleResp
  by_cases h : gjsonInt (Json.get resp "errcode") = 0 <;>
    simp [h, List.filterMap_append, decodeArg]

theorem Do_cases {σ : Type} (corp : Corp) (tok : String) (a : wx.Action σ) (s : σ) :
    (∃ e pre, Corp.transportOutcome corp tok a = Except.error e
        ∧ Corp.Do corp tok a s = (some e, s, pre)
        ∧ pre.filterMap decodeArg = []
        ∧ pre.countP isParseEnvelope = 0)
    ∨ (∃ resp pre, Corp.transportOutcome corp tok a = Except.ok resp
        ∧ Corp.Do corp tok a s = handleResp a resp s pre
        ∧ pre.filterMap decodeArg = []
        ∧ pre.countP isParseEnvelope = 0) := by
  unfold Corp.Do Corp.transportOutcome
  cases hup : a.IsUpload
  · simp only [Bool.false_eq_true, if_false]
    cases hbody : a.Body with
    | error e =>
        refine Or.inl ⟨e, [Event.callBody], rfl, rfl, ?_, ?_⟩ <;> rfl
    | ok b =>
        dsimp only
        cases hcl : corp.client.Do a.Method (a.URL tok) b with
        | error err => refine Or.inl ⟨err, _, rfl, rfl, ?_, ?_⟩ <;> rfl
        | ok resp => refine Or.inr ⟨resp, _, rfl, rfl, ?_, ?_⟩ <;> rfl
  · simp only [if_true]
    cases hform : a.UploadForm with
    | error e =>
        refine Or.inl ⟨e, [Event.callUploadForm], rfl, rfl, ?_, ?_⟩ <;> rfl
    | ok form =>
        dsimp only
        cases hcl : corp.client.Upload (a.URL tok) form with
        | error err => refine Or.inl ⟨err, _, rfl, rfl, ?_, ?_⟩ <;> rfl
        | ok resp => refine Or.inr ⟨resp, _, rfl, rfl, ?_, ?_⟩ <;> rfl

/-- C1: for every dispatch whose response carries an `errcode` member that
decodes to a non-zero integer, `Corp.Do` returns the error
`fmt.Errorf("%d|%s", code, errmsg)` — numeric code, a bar, then the
response's `errmsg` string — the destination state is untouched, and the
Action's `Decode` is never invoked on that dispatch. -/
theorem Do_envelope_error {σ : Type} (corp : Corp) (tok : String) (a : wx.Action σ)
    (s : σ) (resp : Json)
    (htrans : Corp.transportOutcome corp tok a = Except.ok resp)
    (hcode : gjsonInt (Json.get resp "errcode") ≠ 0) :
    (Corp.Do corp tok a s).1
      = some (GoError.errorf (toString (gjsonInt (Json.get resp "errcode")) ++ "|"
          ++ gjsonString (Json.get resp "errmsg")))
    ∧ (Corp.Do corp tok a s).2.1 = s
    ∧ ((Corp.Do corp tok a s).2.2).filterMap decodeArg = [] := by
  rcases Do_cases corp tok a s with ⟨e, pre, htr, hdo, hdec, henv⟩
    | ⟨resp2, pre, htr, hdo, hdec, henv⟩
  · rw [htrans] at htr; cases htr
  · rw [htrans] at htr
    injection htr with h
    subst h
    rw [hdo]
    unfold handleResp
    simp [hcode, List.filterMap_append, hdec, decodeArg]

/-- C2: for every dispatch in which body/form production and the transport
both succeed, an `errcode` member that is absent or decodes to zero makes
`Corp.Do` invoke the Action's `Decode` exactly once, on the full response,
and return exactly what `Decode` returned (error and destination state);
absence of `errcode` and an explicit zero are the same success case. -/
theorem Do_success_decodes {σ : Type} (corp : Corp) (tok : String) (a : wx.Action σ)
    (s : σ) (resp : Json)
    (htrans : Corp.transportOutcome corp tok a = Except.ok resp)
    (hcode : Json.get resp "errcode" = none ∨ gjsonInt (Json.get resp "errcode") = 0) :
    (Corp.Do corp tok a s).1 = (a.Decode resp s).1
    ∧ (Corp.Do corp tok a s).2.1 = (a.Decode resp s).2
    ∧ ((Corp.Do corp tok a s).2.2).filterMap decodeArg = [resp] := by
  have hc0 : gjsonInt (Json.get resp "errcode") = 0 := by
    rcases hcode with h | h
    · rw [h]; rfl
    · exact h
  rcases Do_cases corp tok a s with ⟨e, pre, htr, hdo, hdec, henv⟩
    | ⟨resp2, pre, htr, hdo, hdec, henv⟩
  · rw [htrans] at htr; cases htr
  · rw [htrans] at htr
    injection htr with h
    subst h
    rw [hdo]
    unfold handleResp
    simp [hc0, List.filterMap_append, hdec, decodeArg]

/-- C3: every dispatch returns exactly one of: nil; an error produced before
the envelope stage (encoding or transport), returned as-is; an envelope
error; or the Action's own decode error — the four cases are mutually
exclusive — and whenever `Decode` was not invoked the caller-owned
destination state is returned completely unchanged (so every non-nil error
other than a decode error leaves it unmutated). -/
theorem Do_outcome_exclusive {σ : Type} (corp : Corp) (tok : String) (a : wx.Action σ)
    (s : σ) :
    (((Corp.Do corp tok a s).1 = none)
      ∨ (∃ e, Corp.transportOutcome corp tok a = Except.error e
            ∧ (Corp.Do corp tok a s).1 = some e
            ∧ (Corp.Do corp tok a s).2.1 = s
            ∧ ((Corp.Do corp tok a s).2.2).filterMap decodeArg = [])
      ∨ (∃ resp, Corp.transportOutcome corp tok a = Except.ok resp
            ∧ gjsonInt (Json.get resp "errcode") ≠ 0
            ∧ (Corp.Do corp tok a s).1
                = some (GoError.errorf (toString (gjsonInt (Json.get resp "errcode"))
                    ++ "|" ++ gjsonString (Json.get resp "errmsg")))
            ∧ (Corp.Do corp tok a s).2.1 = s
            ∧ ((Corp.Do corp tok a s).2.2).filterMap decodeArg = [])
      ∨ (∃ resp, Corp.transportOutcome corp tok a = Except.ok resp
            ∧ gjsonInt (Json.get resp "errcode") = 0
            ∧ (Corp.Do corp tok a s).1 = (a.Decode resp s).1
            ∧ (Corp.Do corp tok a s).1 ≠ none
            ∧ (Corp.Do corp tok a s).2.1 = (a.Decode resp s).2))
    ∧ ¬(((Corp.Do corp tok a s).1 = none)
          ∧ ∃ e, (Corp.Do corp tok a s).1 = some e)
    ∧ ¬((∃ e, Corp.transportOutcome corp tok a = Except.error e)
          ∧ ∃ resp, Corp.transportOutcome corp tok a = Except.ok resp)
    ∧ (∀ resp, Corp.transportOutcome corp tok a = Except.ok resp →
          ¬(gjsonInt (Json.get resp "errcode") ≠ 0
              ∧ gjsonInt (Json.get resp "errcode") = 0))
    ∧ (((Corp.Do corp tok a s).2.2).filterMap decodeArg = []
          → (Corp.Do corp tok a s).2.1 = s) := by
  refine ⟨?_, ?_, ?_, ?_, ?_⟩
  · rcases Do_cases corp tok a s with ⟨e, pre, htr, hdo, hdec, henv⟩
      | ⟨resp, pre, htr, hdo, hdec, henv⟩
    · exact Or.inr (Or.inl ⟨e, htr, by rw [hdo], by rw [hdo],
        by rw [hdo]; exact hdec⟩)
    · by_cases hc : gjsonInt (Json.get resp "errcode") = 0
      · by_cases hd : (a.Decode resp s).1 = none
        · refine Or.inl ?_
          rw [hdo]; unfold handleResp; simp [hc, hd]
        · refine Or.inr (Or.inr (Or.inr ⟨resp, htr, hc, ?_, ?_, ?_⟩))
          · rw [hdo]; unfold handleResp; simp [hc]
          · rw [hdo]; unfold handleResp; simp [hc, hd]
          · rw [hdo]; unfold handleResp; simp [hc]
      · refine Or.inr (Or.inr (Or.inl ⟨resp, htr, hc, ?_, ?_, ?_⟩))
        · rw [hdo]; unfold handleResp; simp [hc]
        · rw [hdo]; unfold handleResp; simp [hc]
        · rw [hdo]; unfold handleResp; simp [hc, List.filterMap_append, hdec, decodeArg]
  · rintro ⟨hnone, e, hsome⟩
    rw [hnone] at hsome
    cases hsome
  · rintro ⟨⟨e, herr⟩, resp, hok⟩
    rw [herr] at hok
    cases hok
  · rintro resp _ ⟨hne, heq⟩
    exact hne heq
  · intro hnodec
    rcases Do_cases corp tok a s with ⟨e, pre, htr, hdo, hdec, henv⟩
      | ⟨resp, pre, htr, hdo, hdec, henv⟩
    · rw [hdo]
    · rw [hdo] at hnodec ⊢
      rw [handleResp_decodeCalls] at hnodec
      rw [hdec] at hnodec
      by_cases hc : gjsonInt (Json.get resp "errcode") = 0
      · rw [if_pos hc] at hnodec
        cases hnodec
      · unfold handleResp
        simp [hc]

/-- C4: on every dispatch exactly one of the Action's `Body` and
`UploadForm` capabilities is invoked, and which one is selected is
determined solely by the boolean `IsUpload()` — `UploadForm` when true,
`Body` when false. -/
theorem Do_selects_producer {σ : Type} (corp : Corp) (tok : String) (a : wx.Action σ)
    (s : σ) :
    ((Corp.Do corp tok a s).2.2).countP isCallBody = (if a.IsUpload then 0 else 1)
    ∧ ((Corp.Do corp tok a s).2.2).countP isCallUploadForm
        = (if a.IsUpload then 1 else 0) := by
  unfold Corp.Do
  cases hup : a.IsUpload
  · simp only [Bool.false_eq_true, if_false]
    cases hbody : a.Body with
    | error e => constructor <;> rfl
    | ok b =>
      dsimp only
      cases hcl : corp.client.Do a.Method (a.URL tok) b with
      | error err => constructor <;> rfl
      | ok resp =>
        constructor <;>
          simp [handleResp_countP, List.countP_cons, isCallBody, isCallUploadForm]
  · simp only [if_true]
    cases hform : a.UploadForm with
    | error e => constructor <;> rfl
    | ok form =>
      dsimp only
      cases hcl : corp.client.Upload (a.URL tok) form with
      | error err => constructor <;> rfl
      | ok resp =>
        constructor <;>
          simp [handleResp_countP, List.countP_cons, isCallBody, isCallUploadForm]

/-- C5: if the selected producer (`UploadForm` on the upload path, `Body`
otherwise) fails, `Corp.Do` returns that same error immediately: the trace
shows no transport call, no envelope parse and no `Decode` invocation, and
the destination state is unchanged. -/
theorem Do_production_error {σ : Type} (corp : Corp) (tok : String) (a : wx.Action σ)
    (s : σ) :
    (∀ e, a.IsUpload = true → a.UploadForm = Except.error e →
        Corp.Do corp tok a s = (some e, s, [Event.callUploadForm]))
    ∧ (∀ e, a.IsUpload = false → a.Body = Except.error e →
        Corp.Do corp tok a s = (some e, s, [Event.callBody])) := by
  constructor
  · intro e hup hform
    unfold Corp.Do
    simp [hup, hform]
  · intro e hup hbody
    unfold Corp.Do
    simp [hup, hbody]

/-- C6: if the transport capability (`client.Do` or `client.Upload`) fails,
`Corp.Do` returns that error value unchanged, and the trace shows that
neither the envelope parse nor the Action's `Decode` ever ran; the
destination state is unchanged. -/
theorem Do_transport_error {σ : Type} (corp : Corp) (tok : String) (a : wx.Action σ)
    (s : σ) :
    (∀ form err, a.IsUpload = true → a.UploadForm = Except.ok form →
        corp.client.Upload (a.URL tok) form = Except.error err →
        Corp.Do corp tok a s
          = (some err, s,
              [Event.callUploadForm, Event.callClientUpload (a.URL tok) form]))
    ∧ (∀ b err, a.IsUpload = false → a.Body = Except.ok b →
        corp.client.Do a.Method (a.URL tok) b = Except.error err →
        Corp.Do corp tok a s
          = (some err, s,
              [Event.callBody, Event.callClientDo a.Method (a.URL tok) b])) := by
  constructor
  · intro form err hup hform hcl
    unfold Corp.Do
    simp [hup, hform, hcl]
  · intro b err hup hbody hcl
    unfold Corp.Do
    simp [hup, hbody, hcl]


/-- C9: `Corp.AccessToken` never returns both a non-nil token and a non-nil
error; every call falls in exactly one of: transport error returned with nil
token; non-zero `errcode` returned as the `code|message` error with nil
token and no unmarshal attempted; unmarshal error returned with nil token;
or a non-nil token with nil error. -/
theorem AccessToken_exclusive (corp : Corp) (secret : String) :
    ¬((Corp.AccessToken corp secret).1 ≠ none
        ∧ (Corp.AccessToken corp secret).2.1 ≠ none)
    ∧ ((∃ e, Corp.tokenRequest corp secret = Except.error e
            ∧ (Corp.AccessToken corp secret).1 = none
            ∧ (Corp.AccessToken corp secret).2.1 = some e
            ∧ ((Corp.AccessToken corp secret).2.2).countP isCallUnmarshal = 0)
      ∨ (∃ resp, Corp.tokenRequest corp secret = Except.ok resp
            ∧ gjsonInt (Json.get resp "errcode") ≠ 0
            ∧ (Corp.AccessToken corp secret).1 = none
            ∧ (Corp.AccessToken corp secret).2.1
                = some (GoError.errorf (toString (gjsonInt (Json.get resp "errcode"))
                    ++ "|" ++ gjsonString (Json.get resp "errmsg")))
            ∧ ((Corp.AccessToken corp secret).2.2).countP isCallUnmarshal = 0)
      ∨ (∃ resp e, Corp.tokenRequest corp secret = Except.ok resp
            ∧ gjsonInt (Json.get resp "errcode") = 0
            ∧ unmarshalAccessToken resp = Except.error e
            ∧ (Corp.AccessToken corp secret).1 = none
            ∧ (Corp.AccessToken corp secret).2.1 = some e)
      ∨ (∃ resp t, Corp.tokenRequest corp secret = Except.ok resp
            ∧ gjsonInt (Json.get resp "errcode") = 0
            ∧ unmarshalAccessToken resp = Except.ok t
            ∧ (Corp.AccessToken corp secret).1 = some t
            ∧ (Corp.AccessToken corp secret).2.1 = none)) := by
  unfold Corp.AccessToken Corp.tokenRequest
  dsimp only
  cases hcl : corp.client.Do "GET"
      (CorpCgiBinAccessToken ++ "?corpid=" ++ corp.corpid ++ "&corpsecret=" ++ secret)
      none with
  | error e =>
    constructor
    · rintro ⟨h1, _⟩
      exact h1 rfl
    · exact Or.inl ⟨e, rfl, rfl, rfl, rfl⟩
  | ok resp =>
    dsimp only
    by_cases hc : gjsonInt (Json.get resp "errcode") = 0
    · rw [if_neg (not_not_intro hc)]
      cases hum : unmarshalAccessToken resp with
      | error e =>
        constructor
        · rintro ⟨h1, _⟩
          exact h1 rfl
        · exact Or.inr (Or.inr (Or.inl ⟨resp, e, rfl, hc, hum, rfl, rfl⟩))
      | ok t =>
        constructor
        · rintro ⟨_, h2⟩
          exact h2 rfl
        · exact Or.inr (Or.inr (Or.inr ⟨resp, t, rfl, hc, hum, rfl, rfl⟩))
    · rw [if_pos hc]
      constructor
      · rintro ⟨h1, _⟩
        exact h1 rfl
      · exact Or.inr (Or.inl ⟨resp, rfl, hc, rfl, rfl, rfl⟩)

/-- C10: `New` builds a `Corp` with the given corpid, the default client and
a 16-character nonce generator, applying the options in argument order; with
`WithMockClient c` the transport capability is exactly `c` and every
subsequent `Do` or `AccessToken` transport call is a call of `c`. -/
theorem New_with_mock_client (σ : Type) (corpid : String) (c : wx.HTTPClient) :
    (∀ opts f, New corpid (opts ++ [f]) = f (New corpid opts))
    ∧ (New corpid []).corpid = corpid
    ∧ (New corpid []).client = NewDefaultClient
    ∧ ((New corpid []).nonce ()).length = 16
    ∧ (New corpid [WithMockClient c]).client = c
    ∧ (New corpid [WithMockClient c]).corpid = corpid
    ∧ (∀ tok (a : wx.Action σ) b, a.IsUpload = false → a.Body = Except.ok b →
        Corp.transportOutcome (New corpid [WithMockClient c]) tok a
          = c.Do a.Method (a.URL tok) b)
    ∧ (∀ tok (a : wx.Action σ) form, a.IsUpload = true →
        a.UploadForm = Except.ok form →
        Corp.transportOutcome (New corpid [WithMockClient c]) tok a
          = c.Upload (a.URL tok) form)
    ∧ (∀ secret, Corp.tokenRequest (New corpid [WithMockClient c]) secret
          = c.Do "GET"
              (CorpCgiBinAccessToken ++ "?corpid=" ++ corpid ++ "&corpsecret=" ++ secret)
              none) := by
  refine ⟨?_, rfl, rfl, rfl, rfl, rfl, ?_, ?_, ?_⟩
  · intro opts f
    unfold New
    rw [List.foldl_append]
    rfl
  · intro tok a b hup hbody
    unfold Corp.transportOutcome
    simp [hup, hbody, New, WithMockClient]
  · intro tok a form hup hform
    unfold Corp.transportOutcome
    simp [hup, hform, New, WithMockClient]
  · intro secret
    rfl

/-- Witness for `Do_envelope_error` at a concrete dispatch: a transport
delivering the errcode-40013 envelope. -/
theorem Do_envelope_error_witness :
    Corp.transportOutcome (mkCorp (constClient respErr)) "T" postAction
        = Except.ok respErr
    ∧ gjsonInt (Json.get respErr "errcode") ≠ 0
    ∧ ((Corp.Do (mkCorp (constClient respErr)) "T" postAction 0).1
          = some (GoError.errorf (toString (gjsonInt (Json.get respErr "errcode"))
              ++ "|" ++ gjsonString (Json.get respErr "errmsg")))
        ∧ (Corp.Do (mkCorp (constClient respErr)) "T" postAction 0).2.1 = 0
        ∧ ((Corp.Do (mkCorp (constClient respErr)) "T" postAction 0).2.2).filterMap
            decodeArg = []) :=
  ⟨rfl, by decide,
    Do_envelope_error (mkCorp (constClient respErr)) "T" postAction 0 respErr rfl
      (by decide)⟩

/-- Witness for `Do_success_decodes` at a concrete dispatch: a success
response with no `errcode` member at all. -/
theorem Do_success_decodes_witness :
    Corp.transportOutcome (mkCorp (constClient respNoCode)) "T" postAction
        = Except.ok respNoCode
    ∧ Json.get respNoCode "errcode" = none
    ∧ ((Corp.Do (mkCorp (constClient respNoCode)) "T" postAction 0).1
          = (postAction.Decode respNoCode 0).1
        ∧ (Corp.Do (mkCorp (constClient respNoCode)) "T" postAction 0).2.1
          = (postAction.Decode respNoCode 0).2
        ∧ ((Corp.Do (mkCorp (constClient respNoCode)) "T" postAction 0).2.2).filterMap
            decodeArg = [respNoCode]) :=
  ⟨rfl, rfl,
    Do_success_decodes (mkCorp (constClient respNoCode)) "T" postAction 0 respNoCode rfl
      (Or.inl rfl)⟩

/-- Witness for `Do_outcome_exclusive`: its frame clause applied at a
concrete dispatch whose trace contains no Decode invocation. -/
theorem Do_outcome_exclusive_witness :
    ((Corp.Do (mkCorp downClient) "T" postAction 0).2.2).filterMap decodeArg = []
    ∧ (Corp.Do (mkCorp downClient) "T" postAction 0).2.1 = 0 :=
  ⟨rfl, (Do_outcome_exclusive (mkCorp downClient) "T" postAction 0).2.2.2.2 rfl⟩

/-- Witness for `Do_production_error` at a concrete upload dispatch whose
form production fails. -/
theorem Do_production_error_witness :
    badFormAction.IsUpload = true
    ∧ badFormAction.UploadForm = Except.error (GoError.ext 4)
    ∧ Corp.Do (mkCorp downClient) "T" badFormAction 0
        = (some (GoError.ext 4), 0, [Event.callUploadForm]) :=
  ⟨rfl, rfl,
    (Do_production_error (mkCorp downClient) "T" badFormAction 0).1 (GoError.ext 4)
      rfl rfl⟩

/-- Witness for `Do_transport_error` at a concrete upload dispatch whose
transport fails. -/
theorem Do_transport_error_witness :
    uploadAction.IsUpload = true
    ∧ uploadAction.UploadForm = Except.ok ⟨0⟩
    ∧ (mkCorp downClient).client.Upload (uploadAction.URL "T") ⟨0⟩
        = Except.error (GoError.ext 7)
    ∧ Corp.Do (mkCorp downClient) "T" uploadAction 0
        = (some (GoError.ext 7), 0,
            [Event.callUploadForm, Event.callClientUpload (uploadAction.URL "T") ⟨0⟩]) :=
  ⟨rfl, rfl, rfl,
    (Do_transport_error (mkCorp downClient) "T" uploadAction 0).1 ⟨0⟩ (GoError.ext 7)
      rfl rfl rfl⟩

/-- Witness for `AccessToken_exclusive` at a concrete corp whose transport
delivers the errcode-40013 envelope. -/
theorem AccessToken_exclusive_witness :
    (Corp.AccessToken (mkCorp (constClient respErr)) "SECRET").1 = none
    ∧ ¬((Corp.AccessToken (mkCorp (constClient respErr)) "SECRET").1 ≠ none
        ∧ (Corp.AccessToken (mkCorp (constClient respErr)) "SECRET").2.1 ≠ none) :=
  ⟨by decide, (AccessToken_exclusive (mkCorp (constClient respErr)) "SECRET").1⟩

/-- Witness for `New_with_mock_client`: the non-upload transport clause at a
concrete action, showing the dispatch goes through the mock client. -/
theorem New_with_mock_client_witness :
    postAction.IsUpload = false
    ∧ postAction.Body = Except.ok (some Json.null)
    ∧ Corp.transportOutcome (New "10001" [WithMockClient downClient]) "T" postAction
        = downClient.Do postAction.Method (postAction.URL "T") (some Json.null) :=
  ⟨rfl, rfl,
    (New_with_mock_client Nat "10001" downClient).2.2.2.2.2.2.1 "T" postAction
      (some Json.null) rfl rfl⟩

theorem lookup_strField_ne (key k v : String) (rest : List (String × Json))
    (h : (key = k) = False) :
    List.lookup key (strField k v ++ rest) = List.lookup key rest := by
  have hb : (key == k) = false := by
    rw [beq_eq_false_iff_ne]
    simp [h]
  by_cases hv : v = "" <;> simp [strField, hv, List.lookup, hb]

theorem getStrField_strField_self (k v : String) (rest : List (String × Json))
    (hrest : List.lookup k rest = none) :
    getStrField (strField k v ++ rest) k = Except.ok v := by
  by_cases hv : v = ""
  · simp [strField, hv, getStrField, hrest]
  · simp [strField, hv, getStrField, List.lookup]

theorem getStrField_append_ne (key k v : String) (rest : List (String × Json))
    (h : (key = k) = False) :
    getStrField (strField k v ++ rest) key = getStrField rest key := by
  unfold getStrField
  rw [lookup_strField_ne _ _ _ _ h]

theorem decodeSubField_skip (k v : String) (rest : List (String × Json))
    (h : (k = "sub_button") = False) :
    decodeSubField (strField k v ++ rest) = decodeSubField rest := by
  by_cases hv : v = "" <;> simp [strField, hv, decodeSubField, h]

theorem subFieldArr_skip (k v : String) (rest : List (String × Json))
    (h : (k = "sub_button") = False) :
    subFieldArr (strField k v ++ rest) = subFieldArr rest := by
  by_cases hv : v = "" <;> simp [strField, hv, subFieldArr, h]



theorem getStr_ser_type (t n k u a p m : String) (x : Json) :
    getStrField (strField "type" t ++ (strField "name" n ++ (strField "key" k ++ (strField "url" u ++ (strField "appid" a ++ (strField "pagepath" p ++ (strField "media_id" m ++ ([("sub_button", x)])))))))) "type" = Except.ok t := by
  apply getStrField_strField_self
  rw [lookup_strField_ne _ _ _ _ (by simp)]
  rw [lookup_strField_ne _ _ _ _ (by simp)]
  rw [lookup_strField_ne _ _ _ _ (by simp)]
  rw [lookup_strField_ne _ _ _ _ (by simp)]
  rw [lookup_strField_ne _ _ _ _ (by simp)]
  rw [lookup_strField_ne _ _ _ _ (by simp)]
  simp [List.lookup]

theorem getStr_ser_name (t n k u a p m : String) (x : Json) :
    getStrField (strField "type" t ++ (strField "name" n ++ (strField "key" k ++ (strField "url" u ++ (strField "appid" a ++ (strField "pagepath" p ++ (strField "media_id" m ++ ([("sub_button", x)])))))))) "name" = Except.ok n := by
  rw [getStrField_append_ne _ _ _ _ (by simp)]
  apply getStrField_strField_self
  rw [lookup_strField_ne _ _ _ _ (by simp)]
  rw [lookup_strField_ne _ _ _ _ (by simp)]
  rw [lookup_strField_ne _ _ _ _ (by simp)]
  rw [lookup_strField_ne _ _ _ _ (by simp)]
  rw [lookup_strField_ne _ _ _ _ (by simp)]
  simp [List.lookup]

theorem getStr_ser_key (t n k u a p m : String) (x : Json) :
    getStrField (strField "type" t ++ (strField "name" n ++ (strField "key" k ++ (strField "url" u ++ (strField "appid" a ++ (strField "pagepath" p ++ (strField "media_id" m ++ ([("sub_button", x)])))))))) "key" = Except.ok k := by
  rw [getStrField_append_ne _ _ _ _ (by simp)]
  rw [getStrField_append_ne _ _ _ _ (by simp)]
  apply getStrField_strField_self
  rw [lookup_strField_ne _ _ _ _ (by simp)]
  rw [lookup_strField_ne _ _ _ _ (by simp)]
  rw [lookup_strField_ne _ _ _ _ (by simp)]
  rw [lookup_strField_ne _ _ _ _ (by simp)]
  simp [List.lookup]

theorem getStr_ser_url (t n k u a p m : String) (x : Json) :
    getStrField (strField "type" t ++ (strField "name" n ++ (strField "key" k ++ (strField "url" u ++ (strField "appid" a ++ (strField "pagepath" p ++ (strField "media_id" m ++ ([("sub_button", x)])))))))) "url" = Except.ok u := by
  rw [getStrField_append_ne _ _ _ _ (by simp)]
  rw [getStrField_append_ne _ _ _ _ (by simp)]
  rw [getStrField_append_ne _ _ _ _ (by simp)]
  apply getStrField_strField_self
  rw [lookup_strField_ne _ _ _ _ (by simp)]
  rw [lookup_strField_ne _ _ _ _ (by simp)]
  rw [lookup_strField_ne _ _ _ _ (by simp)]
  simp [List.lookup]

theorem getStr_ser_appid (t n k u a p m : String) (x : Json) :
    getStrField (strField "type" t ++ (strField "name" n ++ (strField "key" k ++ (strField "url" u ++ (strField "appid" a ++ (strField "pagepath" p ++ (strField "media_id" m ++ ([("sub_button", x)])))))))) "appid" = Except.ok a := by
  rw [getStrField_append_ne _ _ _ _ (by simp)]
  rw [getStrField_append_ne _ _ _ _ (by simp)]
  rw [getStrField_append_ne _ _ _ _ (by simp)]
  rw [getStrField_append_ne _ _ _ _ (by simp)]
  apply getStrField_strField_self
  rw [lookup_strField_ne _ _ _ _ (by simp)]
  rw [lookup_strField_ne _ _ _ _ (by simp)]
  simp [List.lookup]

theorem getStr_ser_pagepath (t n k u a p m : String) (x : Json) :
    getStrField (strField "type" t ++ (strField "name" n ++ (strField "key" k ++ (strField "url" u ++ (strField "appid" a ++ (strField "pagepath" p ++ (strField "media_id" m ++ ([("sub_button", x)])))))))) "pagepath" = Except.ok p := by
  rw [getStrField_append_ne _ _ _ _ (by simp)]
  rw [getStrField_append_ne _ _ _ _ (by simp)]
  rw [getStrField_append_ne _ _ _ _ (by simp)]
  rw [getStrField_append_ne _ _ _ _ (by simp)]
  rw [getStrField_append_ne _ _ _ _ (by simp)]
  apply getStrField_strField_self
  rw [lookup_strField_ne _ _ _ _ (by simp)]
  simp [List.lookup]

theorem getStr_ser_media (t n k u a p m : String) (x : Json) :
    getStrField (strField "type" t ++ (strField "name" n ++ (strField "key" k ++ (strField "url" u ++ (strField "appid" a ++ (strField "pagepath" p ++ (strField "media_id" m ++ ([("sub_button", x)])))))))) "media_id" = Except.ok m := by
  rw [getStrField_append_ne _ _ _ _ (by simp)]
  rw [getStrField_append_ne _ _ _ _ (by simp)]
  rw [getStrField_append_ne _ _ _ _ (by simp)]
  rw [getStrField_append_ne _ _ _ _ (by simp)]
  rw [getStrField_append_ne _ _ _ _ (by simp)]
  rw [getStrField_append_ne _ _ _ _ (by simp)]
  apply getStrField_strField_self
  simp [List.lookup]

theorem decodeSub_ser (t n k u a p m : String) (x : Json) :
    decodeSubField (strField "type" t ++ (strField "name" n ++ (strField "key" k ++ (strField "url" u ++ (strField "appid" a ++ (strField "pagepath" p ++ (strField "media_id" m ++ ([("sub_button", x)])))))))) = decodeSubVal x := by
  rw [decodeSubField_skip _ _ _ (by simp), decodeSubField_skip _ _ _ (by simp),
    decodeSubField_skip _ _ _ (by simp), decodeSubField_skip _ _ _ (by simp),
    decodeSubField_skip _ _ _ (by simp), decodeSubField_skip _ _ _ (by simp),
    decodeSubField_skip _ _ _ (by simp)]
  simp [decodeSubField]

theorem subFieldArr_ser (t n k u a p m : String) (x : Json) :
    subFieldArr (strField "type" t ++ (strField "name" n ++ (strField "key" k ++ (strField "url" u ++ (strField "appid" a ++ (strField "pagepath" p ++ (strField "media_id" m ++ ([("sub_button", x)])))))))) = subValArr x := by
  rw [subFieldArr_skip _ _ _ (by simp), subFieldArr_skip _ _ _ (by simp),
    subFieldArr_skip _ _ _ (by simp), subFieldArr_skip _ _ _ (by simp),
    subFieldArr_skip _ _ _ (by simp), subFieldArr_skip _ _ _ (by simp),
    subFieldArr_skip _ _ _ (by simp)]
  simp [subFieldArr]

theorem lookup_ser_sub (t n k u a p m : String) (x : Json) :
    List.lookup "sub_button" (strField "type" t ++ (strField "name" n ++ (strField "key" k ++ (strField "url" u ++ (strField "appid" a ++ (strField "pagepath" p ++ (strField "media_id" m ++ ([("sub_button", x)])))))))) = some x := by
  rw [lookup_strField_ne _ _ _ _ (by simp), lookup_strField_ne _ _ _ _ (by simp),
    lookup_strField_ne _ _ _ _ (by simp), lookup_strField_ne _ _ _ _ (by simp),
    lookup_strField_ne _ _ _ _ (by simp), lookup_strField_ne _ _ _ _ (by simp),
    lookup_strField_ne _ _ _ _ (by simp)]
  simp [List.lookup]

mutual

theorem roundtripButton : ∀ b : MenuButton,
    decodeButton (serializeButton b) = Except.ok b
  | MenuButton.mk t n k u a p m sub => by
      simp only [serializeButton, decodeButton, getStr_ser_type, getStr_ser_name,
        getStr_ser_key, getStr_ser_url, getStr_ser_appid, getStr_ser_pagepath,
        getStr_ser_media, decodeSub_ser, roundtripSubVal sub]

theorem roundtripSubVal : ∀ sub : Option (List MenuButton),
    decodeSubVal (serializeSub sub) = Except.ok sub
  | none => rfl
  | some xs => by
      simp only [serializeSub, decodeSubVal, roundtripList xs]

theorem roundtripList : ∀ xs : List MenuButton,
    decodeList (serializeList xs) = Except.ok xs
  | [] => rfl
  | b :: bs => by
      simp only [serializeList, decodeList, roundtripButton b, roundtripList bs]

end

mutual

theorem wireButton : ∀ b : MenuButton, wellFormed b = true →
    subAlwaysArr (serializeButton b) = true
  | MenuButton.mk t n k u a p m none => by
      intro h
      simp [wellFormed] at h
  | MenuButton.mk t n k u a p m (some xs) => by
      intro h
      rw [wellFormed] at h
      simp only [serializeButton, subAlwaysArr, subFieldArr_ser, serializeSub, subValArr]
      exact wireList xs h

theorem wireList : ∀ xs : List MenuButton, wellFormedList xs = true →
    subListArr (serializeList xs) = true
  | [] => fun _ => rfl
  | b :: bs => by
      intro h
      rw [wellFormedList, Bool.and_eq_true] at h
      simp only [serializeList, subListArr]
      simp [wireButton b h.1, wireList bs h.2]

end

/-- C7: a builder-produced `MenuButton` tree (every child list a sequence,
never nil) round-trips: the Create action's body producer marshals exactly
the serialized button array; the Get action's decoder applied to the
equivalent response shape recovers exactly the same nodes — `Type`, `Name`,
`Key`, `URL`, `AppID`, `PagePath` and `MediaID` identical, child lists
identical; on the wire every node carries `sub_button` as an array (the
empty array precisely when it has no children), and in memory a childless
node decodes back to the empty, non-nil sequence. -/
theorem menu_roundtrip (bs : List MenuButton) (mid : Int) (s : MenuInfo)
    (hwf : wellFormedList bs = true) :
    (CreateMenu bs).Body
        = Except.ok (some (Json.obj [("button", Json.arr (serializeList bs))]))
    ∧ wx.Action.Decode GetMenu
        (Json.obj [("menu", Json.obj [("button", Json.arr (serializeList bs)),
            ("menuid", Json.num mid)])]) s
      = (none, ⟨some ⟨some bs, mid⟩, none⟩)
    ∧ subListArr (serializeList bs) = true
    ∧ (∀ b : MenuButton, b.SubButton = some [] →
        Json.get (serializeButton b) "sub_button" = some (Json.arr [])) := by
  refine ⟨rfl, ?_, wireList bs hwf, ?_⟩
  · simp [GetMenu, decodeMenuInfo, decodeDefaultMenu, decodeButtonsField, getIntField,
      List.lookup, roundtripList bs]
  · intro b hb
    cases b with
    | mk t n k u a p m sub =>
      rw [MenuButton.SubButton] at hb
      subst hb
      simp only [serializeButton, Json.get, lookup_ser_sub, serializeSub, serializeList]

/-- C8: the Get action's decoder applied to the `TestGetMenu` response —
whose `conditionalmenu[0].matchrule` lacks the `language` member — yields
exactly the expected `MenuInfo`, with `Language` empty; in general a
matchrule object with no `language` member decodes to `Language = ""` while
every present string member is taken verbatim, and a pure group button
(name and children only) decodes with empty-string zero values for `Type`,
`Key`, `URL`, `AppID`, `PagePath` and `MediaID` rather than omitted
fields. -/
theorem getmenu_missing_language (kvs : List (String × Json)) (mr : MenuMatchRule)
    (hlang : List.lookup "language" kvs = none)
    (hmr : decodeMatchRule (Json.obj kvs) = Except.ok mr) :
    (∀ s : MenuInfo, wx.Action.Decode GetMenu testMenuResp s = (none, testMenuInfo))
    ∧ mr.Language = ""
    ∧ (∀ v, List.lookup "tag_id" kvs = some (Json.str v) → mr.TagID = v)
    ∧ (∀ v, List.lookup "sex" kvs = some (Json.str v) → mr.Sex = v)
    ∧ (∀ v, List.lookup "country" kvs = some (Json.str v) → mr.Country = v)
    ∧ (∀ v, List.lookup "province" kvs = some (Json.str v) → mr.Province = v)
    ∧ (∀ v, List.lookup "city" kvs = some (Json.str v) → mr.City = v)
    ∧ (∀ v, List.lookup "client_platform_type" kvs = some (Json.str v) →
        mr.ClientPlatformType = v)
    ∧ (∀ nm subs bs2, decodeList subs = Except.ok bs2 →
        decodeButton (Json.obj [("name", Json.str nm), ("sub_button", Json.arr subs)])
          = Except.ok (MenuButton.mk "" nm "" "" "" "" "" (some bs2))) := by
  unfold decodeMatchRule at hmr
  cases h1 : getStrField kvs "tag_id" with
  | error e => simp [h1] at hmr
  | ok a =>
  simp only [h1] at hmr
  cases h2 : getStrField kvs "sex" with
  | error e => simp [h2] at hmr
  | ok b =>
  simp only [h2] at hmr
  cases h3 : getStrField kvs "country" with
  | error e => simp [h3] at hmr
  | ok c =>
  simp only [h3] at hmr
  cases h4 : getStrField kvs "province" with
  | error e => simp [h4] at hmr
  | ok d =>
  simp only [h4] at hmr
  cases h5 : getStrField kvs "city" with
  | error e => simp [h5] at hmr
  | ok e2 =>
  simp only [h5] at hmr
  cases h6 : getStrField kvs "client_platform_type" with
  | error e => simp [h6] at hmr
  | ok f =>
  simp only [h6] at hmr
  cases h7 : getStrField kvs "language" with
  | error e => simp [h7] at hmr
  | ok g =>
  simp only [h7] at hmr
  have hg : g = "" := by
    unfold getStrField at h7
    rw [hlang] at h7
    injection h7 with h
    exact h.symm
  injection hmr with hmr2
  subst hmr2
  subst hg
  refine ⟨fun s => rfl, rfl, ?_, ?_, ?_, ?_, ?_, ?_, ?_⟩
  · intro v hv
    unfold getStrField at h1
    rw [hv] at h1
    injection h1 with h
    exact h.symm
  · intro v hv
    unfold getStrField at h2
    rw [hv] at h2
    injection h2 with h
    exact h.symm
  · intro v hv
    unfold getStrField at h3
    rw [hv] at h3
    injection h3 with h
    exact h.symm
  · intro v hv
    unfold getStrField at h4
    rw [hv] at h4
    injection h4 with h
    exact h.symm
  · intro v hv
    unfold getStrField at h5
    rw [hv] at h5
    injection h5 with h
    exact h.symm
  · intro v hv
    unfold getStrField at h6
    rw [hv] at h6
    injection h6 with h
    exact h.symm
  · intro nm subs bs2 hbs2
    simp [decodeButton, getStrField, List.lookup, decodeSubField, decodeSubVal, hbs2]

/-- Witness for `menu_roundtrip` at the `TestCreateMenu` button tree. -/
theorem menu_roundtrip_witness :
    wellFormedList testCreateButtons = true
    ∧ wx.Action.Decode GetMenu
        (Json.obj [("menu", Json.obj
            [("button", Json.arr (serializeList testCreateButtons)),
              ("menuid", Json.num 208396938)])]) ⟨none, none⟩
      = (none, ⟨some ⟨some testCreateButtons, 208396938⟩, none⟩) :=
  ⟨rfl, (menu_roundtrip testCreateButtons 208396938 ⟨none, none⟩ rfl).2.1⟩

/-- Witness for `getmenu_missing_language` at the test's matchrule object. -/
theorem getmenu_missing_language_witness :
    List.lookup "language" testMatchRuleKvs = none
    ∧ decodeMatchRule (Json.obj testMatchRuleKvs) = Except.ok testMatchRuleVal
    ∧ testMatchRuleVal.Language = "" :=
  ⟨rfl, rfl, (getmenu_missing_language testMatchRuleKvs testMatchRuleVal rfl rfl).2.1⟩
